import Mathlib

/-!
Verification of the Deep_Trust heuristic analysis core (`src/lib/file-utils.ts`,
service section: `analyzeBuffer`, `generateHeatmap`, `generateWaveform`,
`generateCorrelation`, `analyzeFile`, `calculateVariance`, and the
`KNOWN_HASHES` provenance registry).

Modelling conventions:
* a byte is `Fin 256`; a buffer is `List (Fin 256)`;
* JavaScript numbers are modelled as exact real numbers, except where the
  claims are about the machine arithmetic itself: the linear-congruential
  recurrence of the visualization generators multiplies a 31-bit state by
  1103515245, which exceeds the 53-bit double mantissa, so for those
  definitions IEEE-754 double rounding of integers (`rnd53`) is modelled
  exactly; and the division `anomalyCount / headerBytes.length` which is
  `0/0 = NaN` in JavaScript for an empty buffer is modelled as an `Option`
  (`none` = NaN) in `headerAnomalyJS`;
* `Math.random()` is modelled as an explicit real parameter `r` of the
  analysis, one value per call (the code draws it once, for the non-video
  sync score);
* the SHA-256 digest from node's `crypto` module (external library code) is
  modelled as an abstract content-determined key: `computeHash` is the
  identity on byte lists; no claim depends on the structure of the digest,
  only on it being a pure function of the content bytes.  The seed
  `parseInt(fileHash.substring(0, 8), 16)` (the first eight hex characters,
  i.e. the first four digest bytes big-endian) is modelled accordingly;
* the `KNOWN_HASHES` JavaScript `Map` is modelled as a function
  `hash → Option entry`; `Map.get` is application and `Map.set` is pointwise
  update (which, like `Map.set`, overwrites an existing binding);
* wall-clock time (`Date.now`, `new Date().toISOString()`) enters only the
  registration timestamp, modelled as an explicit `String` parameter; the
  `processingTime` output field and the purely presentational `explanation`
  string are not modelled.
-/

set_option maxRecDepth 8000

namespace DeepTrust

/-- Bytes are the values 0..255, exactly the indices of the frequency
histogram in `analyzeBuffer`. -/
abbrev Byte := Fin 256

/-! ## `getMediaCategory` (src/lib/file-utils.ts) -/

/-- Media category returned by `getMediaCategory`: the source returns the
strings "image" / "video" / "audio" / "unknown"; modelled as an inductive. -/
inductive MediaCategory where
  | image
  | video
  | audio
  | unknown
deriving DecidableEq, Repr

/-- Model of `String.startsWith`, realized as a character-list test so that
it evaluates by kernel reduction; extensionally the same predicate. -/
def startsWithM (s pre : String) : Bool :=
  pre.data.isPrefixOf s.data

/-- Source `getMediaCategory`: classify a MIME type by its leading
substring. -/
def getMediaCategory (mimeType : String) : MediaCategory :=
  if startsWithM mimeType "image/" then .image
  else if startsWithM mimeType "video/" then .video
  else if startsWithM mimeType "audio/" then .audio
  else .unknown

/-! ## `analyzeBuffer`: byte statistics -/

/-- Frequency of byte value `v` among the first `min length 65536` bytes
(the histogram loop `for i < Math.min(buffer.length, 65536)`). -/
def freqIn (b : List Byte) (v : Byte) : ℕ :=
  (b.take 65536).count v

/-- Source `len = Math.min(buffer.length, 65536)`, the entropy window size. -/
def sampleLen (b : List Byte) : ℕ :=
  (b.take 65536).length

/-- Shannon entropy accumulator of `analyzeBuffer`: over every non-empty
bucket, `entropy -= p * Math.log2(p)` with `p = freq[i] / len`. -/
noncomputable def entropyRaw (b : List Byte) : ℝ :=
  ∑ v : Byte,
    (if 0 < freqIn b v then
      -(((freqIn b v : ℝ) / (sampleLen b : ℝ)) *
        Real.logb 2 ((freqIn b v : ℝ) / (sampleLen b : ℝ)))
    else 0)

/-- Source `normalizedEntropy = entropy / 8`. -/
noncomputable def entropyN (b : List Byte) : ℝ :=
  entropyRaw b / 8

/-- Source `uniqueBytes = new Set(firstBlock).size` with
`firstBlock = buffer.subarray(0, Math.min(4096, buffer.length))`. -/
def uniqueBytes (b : List Byte) : ℕ :=
  (b.take 4096).dedup.length

/-- Source `uniformity = uniqueBytes / 256`. -/
noncomputable def uniformity (b : List Byte) : ℝ :=
  (uniqueBytes b : ℝ) / 256

/-- Source `headerBytes = buffer.subarray(0, 64)`. -/
def headerBytes (b : List Byte) : List Byte :=
  b.take 64

/-- Source `anomalyCount`: bytes equal to `0xff` or `0x00` in the header. -/
def anomalyCount (b : List Byte) : ℕ :=
  (headerBytes b).countP (fun c => c = (255 : Byte) || c = (0 : Byte))

/-- Source `headerAnomaly = anomalyCount / headerBytes.length`, as the real
number the rest of the pipeline is modelled with.  For `b = []` JavaScript
produces `0/0 = NaN`; that case is captured faithfully by `headerAnomalyJS`,
and every theorem about this real-valued model assumes `b ≠ []`. -/
noncomputable def headerAnomaly (b : List Byte) : ℝ :=
  (anomalyCount b : ℝ) / ((headerBytes b).length : ℝ)

/-- JavaScript-faithful value of `anomalyCount / headerBytes.length`:
division of the 64-bit floats yields NaN (`none`) exactly when the
denominator and numerator are both zero, i.e. when the buffer is empty. -/
def headerAnomalyJS (b : List Byte) : Option ℚ :=
  if (headerBytes b).length = 0 then none
  else some ((anomalyCount b : ℚ) / ((headerBytes b).length : ℚ))

/-! ## `calculateVariance` -/

/-- Source `calculateVariance`: mean of the byte values, then the average
squared deviation; `if (buffer.length === 0) return 0`. -/
noncomputable def calculateVariance (l : List Byte) : ℝ :=
  if l.length = 0 then 0
  else
    ((l.map (fun c => ((c.val : ℝ) -
        (l.map (fun d => (d.val : ℝ))).sum / (l.length : ℝ)) ^ 2)).sum) /
      (l.length : ℝ)

/-! ## Modality scores (`analyzeFile`, visual / audio / cross-modal sections) -/

/-- Source `compressionRatio = buffer.length / (1920 * 1080 * 3)`. -/
noncomputable def compressionRatio (b : List Byte) : ℝ :=
  (b.length : ℝ) / (1920 * 1080 * 3)

/-- Visual analysis branch of `analyzeFile`: image (GAN indicator, header
anomaly, compression-ratio term), video (re-encoding heuristics), or the
0.05 floor for every other category. -/
noncomputable def visualScore (b : List Byte) (cat : MediaCategory) : ℝ :=
  if cat = .image then
    min 1 (max 0
      ((if entropyN b > 0.95 ∧ uniformity b > 0.7 then (0.3 : ℝ) else 0) +
        headerAnomaly b * 0.4 + (1 - compressionRatio b) * 0.1))
  else if cat = .video then
    min 1 (max 0
      (headerAnomaly b * 0.5 + (if entropyN b > 0.97 then (0.2 : ℝ) else 0) +
        uniformity b * 0.1))
  else 0.05

/-- Audio analysis branch of `analyzeFile` (audio or video categories): TTS
indicator from the byte variance of the first 8 KiB, header anomaly and
entropy terms; 0.05 floor otherwise. -/
noncomputable def audioScore (b : List Byte) (cat : MediaCategory) : ℝ :=
  if cat = .audio ∨ cat = .video then
    min 1 (max 0
      ((if calculateVariance (b.take 8192) < 50 then (0.3 : ℝ) else 0) +
        headerAnomaly b * 0.3 + (if entropyN b > 0.98 then (0.15 : ℝ) else 0)))
  else 0.05

/-- Source `spectralAnomaly` (audio or video), 0.03 floor otherwise. -/
noncomputable def spectralAnomaly (b : List Byte) (cat : MediaCategory) : ℝ :=
  if cat = .audio ∨ cat = .video then
    min 1 (max 0
      (audioScore b cat * 0.8 + (if uniformity b > 0.8 then (0.2 : ℝ) else 0)))
  else 0.03

/-- Cross-modal sync score before the line-226 clamp: the deterministic
video formula, or `0.9 + Math.random() * 0.08` with the random draw `r`
passed in explicitly. -/
noncomputable def syncScoreRaw (b : List Byte) (cat : MediaCategory) (r : ℝ) : ℝ :=
  if cat = .video then
    1 - (visualScore b cat * 0.3 + audioScore b cat * 0.3 + headerAnomaly b * 0.2)
  else 0.9 + r * 0.08

/-- Source `syncScore = Math.max(0, Math.min(1, syncScore))`. -/
noncomputable def syncScore (b : List Byte) (cat : MediaCategory) (r : ℝ) : ℝ :=
  max 0 (min 1 (syncScoreRaw b cat r))

/-! ## Verdict fusion -/

/-- Source `weightedScore`: category-selected fusion of the modality scores
with the provenance adjustment ternary `provenanceFound ? -0.15 : 0.1`.
`sync` is the already-clamped `syncScore` variable computed just above it in
the source; only the video branch reads it. -/
noncomputable def weightedScore (b : List Byte) (cat : MediaCategory)
    (sync : ℝ) (provenanceFound : Bool) : ℝ :=
  if cat = .video then
    visualScore b cat * 0.35 + audioScore b cat * 0.3 +
      (1 - sync) * 0.2 +
      (if provenanceFound then -0.15 else 0.1)
  else if cat = .audio then
    audioScore b cat * 0.6 + spectralAnomaly b cat * 0.25 +
      (if provenanceFound then -0.15 else 0.1)
  else
    visualScore b cat * 0.6 + headerAnomaly b * 0.2 +
      (if provenanceFound then -0.15 else 0.1)

/-- Verdict labels. -/
inductive Verdict where
  | authentic
  | suspicious
  | manipulated
deriving DecidableEq, Repr

/-- Verdict branch of `analyzeFile`: `< 0.25` authentic, `> 0.5`
manipulated, otherwise suspicious. -/
noncomputable def classify (w : ℝ) : Verdict :=
  if w < 0.25 then .authentic
  else if w > 0.5 then .manipulated
  else .suspicious

/-- Confidence value assigned in the same if-chain as the verdict, before
the final clamp. -/
noncomputable def confidenceRaw (w : ℝ) : ℝ :=
  if w < 0.25 then 0.85 + (0.25 - w) * 0.4
  else if w > 0.5 then 0.7 + (w - 0.5) * 0.5
  else 0.5 + |w - 0.375| * 0.3

/-- Source `confidence = Math.min(0.99, Math.max(0.4, confidence))`. -/
noncomputable def confidence (w : ℝ) : ℝ :=
  min 0.99 (max 0.4 (confidenceRaw w))

/-- One flagged artifact region. -/
structure Artifact where
  region : String
  severity : ℝ

/-- Artifact list of `analyzeFile`: empty for an authentic verdict,
otherwise the four conditional entries built from the visual score, the
header anomaly and the (normalized) entropy. -/
noncomputable def artifactList (entropy visual header : ℝ) (vd : Verdict) :
    List Artifact :=
  if vd ≠ Verdict.authentic then
    (if visual > 0.3 then
      [⟨"Facial region / Jawline", min 1 (visual * 1.2)⟩] else []) ++
    (if visual > 0.4 then
      [⟨"Eye reflection consistency", min 1 (visual * 0.8)⟩] else []) ++
    (if header > 0.4 then
      [⟨"File header / Metadata", min 1 header⟩] else []) ++
    (if entropy > 0.95 then
      [⟨"Compression artifacts", min 1 ((entropy - 0.9) * 5)⟩] else [])
  else []

/-! ## The visualization generators and their linear-congruential streams

Each generator owns a closure
`nextRandom = () => { rng = (rng * 1103515245 + 12345) & 0x7fffffff; return rng / 0x7fffffff }`.
JavaScript evaluates `rng * 1103515245 + 12345` in 64-bit floating point:
the product of a 31-bit state and the 31-bit constant reaches 2^61, far
beyond the 53-bit double mantissa, so both the product and the subsequent
sum are rounded to 53 significant bits (round to nearest, ties to even)
before `& 0x7fffffff` reduces the represented integer modulo 2^31.  The
rounding of a non-negative integer to a 53-bit double is modelled exactly
by `rnd53`. -/

/-- Bit length of a natural number (fuelled, enough for values below 2^64). -/
def bitlenAux : ℕ → ℕ → ℕ
  | 0, _ => 0
  | fuel + 1, n => if n = 0 then 0 else bitlenAux fuel (n / 2) + 1

/-- Bit length of a natural number below 2^64. -/
def bitlen (n : ℕ) : ℕ := bitlenAux 64 n

/-- Round a natural number to the nearest IEEE-754 double (53 significant
bits, ties to even); the identity below 2^53. -/
def rnd53 (n : ℕ) : ℕ :=
  if n < 2 ^ 53 then n
  else
    let s := bitlen n - 53
    let q := n / 2 ^ s
    let r := n % 2 ^ s
    if r < 2 ^ (s - 1) then q * 2 ^ s
    else if 2 ^ (s - 1) < r then (q + 1) * 2 ^ s
    else (if q % 2 = 0 then q else q + 1) * 2 ^ s

/-- One step of the generator recurrence as JavaScript actually computes
it: `(rng * 1103515245 + 12345) & 0x7fffffff` with both the product and the
sum subject to double rounding. -/
def jsLcgNext (s : ℕ) : ℕ :=
  rnd53 (rnd53 (s * 1103515245) + 12345) % 2 ^ 31

/-- Step function of the `nextRandom` closure local to `generateHeatmap`. -/
def heatStep (rng : ℕ) : ℕ :=
  rnd53 (rnd53 (rng * 1103515245) + 12345) % 2 ^ 31

/-- Step function of the `nextRandom` closure local to `generateWaveform`. -/
def waveStep (rng : ℕ) : ℕ :=
  rnd53 (rnd53 (rng * 1103515245) + 12345) % 2 ^ 31

/-- Step function of the `nextRandom` closure local to
`generateCorrelation`. -/
def corrStep (rng : ℕ) : ℕ :=
  rnd53 (rnd53 (rng * 1103515245) + 12345) % 2 ^ 31

/-- The claim-side recurrence, following the specification's words: the
exact integer arithmetic `seed = (seed * 1103515245 + 12345) mod 2^31`,
with no intermediate rounding. -/
def exactLcgNext (s : ℕ) : ℕ :=
  (s * 1103515245 + 12345) % 2 ^ 31

/-- Value of the `k`-th call (0-indexed) of the canonical stream started at
state `s0`: the state is advanced first, then divided by `0x7fffffff`. -/
noncomputable def lcgValue (s0 k : ℕ) : ℝ :=
  ((jsLcgNext^[k + 1] s0 : ℕ) : ℝ) / (2 ^ 31 - 1)

/-- Value of the `k`-th `nextRandom()` call inside `generateHeatmap`, whose
state starts at `seed` (`let rng = seed`). -/
noncomputable def heatDraw (seed k : ℕ) : ℝ :=
  ((heatStep^[k + 1] seed : ℕ) : ℝ) / (2 ^ 31 - 1)

/-- Value of the `k`-th `nextRandom()` call inside `generateWaveform`,
whose state starts at `seed + 42` (`let rng = seed + 42`). -/
noncomputable def waveDraw (seed k : ℕ) : ℝ :=
  ((waveStep^[k + 1] (seed + 42) : ℕ) : ℝ) / (2 ^ 31 - 1)

/-- Value of the `k`-th `nextRandom()` call inside `generateCorrelation`,
whose state starts at `seed + 99` (`let rng = seed + 99`). -/
noncomputable def corrDraw (seed k : ℕ) : ℝ :=
  ((corrStep^[k + 1] (seed + 99) : ℕ) : ℝ) / (2 ^ 31 - 1)

/-- Source `generateHeatmap`: hotspot centre from the first two draws, then
an 8×12 grid consuming one draw per cell in row-major order. -/
noncomputable def generateHeatmap (seed : ℕ) (manipulationLevel : ℝ) :
    List (List ℝ) :=
  (List.range 8).map (fun (i : ℕ) =>
    (List.range 12).map (fun (j : ℕ) =>
      min 1
        ((max 0 (1 - Real.sqrt (((j : ℝ) - ⌊heatDraw seed 0 * 12⌋₊) ^ 2 +
            ((i : ℝ) - ⌊heatDraw seed 1 * 8⌋₊) ^ 2) / 5)) * manipulationLevel +
          heatDraw seed (2 + (i * 12 + j)) * 0.2)))

/-- Source `generateWaveform`: anomaly window from the first two draws,
then 60 samples each consuming one noise draw. -/
noncomputable def generateWaveform (seed : ℕ) (anomalyLevel : ℝ) : List ℝ :=
  (List.range 60).map (fun (i : ℕ) =>
    |Real.sin ((i : ℝ) * 0.3) * 0.4 + (waveDraw seed (2 + i) - 0.5) * 0.3 +
      (if ⌊waveDraw seed 0 * 20⌋₊ + 20 < i ∧
          i < (⌊waveDraw seed 0 * 20⌋₊ + 20) + (⌊waveDraw seed 1 * 8⌋₊ + 4)
        then anomalyLevel * 0.4 else 0)|)

/-- Source `generateCorrelation`: a desync point from the first draw, then
30 time points each consuming a visual draw and an audio draw; both series
are clamped to [0, 1]. -/
noncomputable def generateCorrelation (seed : ℕ) (syncQuality : ℝ) :
    List (ℝ × ℝ × ℝ) :=
  (List.range 30).map (fun (t : ℕ) =>
    ((t : ℝ),
      max 0 (min 1 (0.5 + Real.sin ((t : ℝ) * 0.2) * 0.3 +
        (corrDraw seed (1 + 2 * t) - 0.5) * 0.1)),
      max 0 (min 1 (0.5 + Real.sin ((t : ℝ) * 0.2 +
          (if ⌊corrDraw seed 0 * 15⌋₊ + 10 < t
            then (1 - syncQuality) * 0.3 else 0)) * 0.3 +
        (corrDraw seed (2 + 2 * t) - 0.5) * 0.1))))

/-! ## The provenance registry and the assembled `analyzeFile` -/

/-- Provenance entry stored in `KNOWN_HASHES`. -/
structure ProvEntry where
  uploader : String
  timestamp : String
deriving DecidableEq

/-- SHA-256 content digest (external `crypto` library code): modelled as an
abstract content-determined key, here the identity on the byte list. -/
def computeHash (b : List Byte) : List Byte := b

/-- The `KNOWN_HASHES` map: content hash to provenance entry. -/
def Registry := List Byte → Option ProvEntry

/-- The empty registry (process start). -/
def emptyReg : Registry := fun _ => none

/-- Source `hashSeed = parseInt(fileHash.substring(0, 8), 16)`: the first
eight hex digit characters of the digest are its first four bytes,
big-endian. -/
def hashSeed (b : List Byte) : ℕ :=
  ((computeHash b).take 4).foldl (fun a c => a * 256 + c.val) 0

/-- The analysis record assembled at the end of `analyzeFile` (the
presentational `explanation` string and the wall-clock `processingTime`
field are not modelled). -/
structure CoreResult where
  entropy : ℝ
  uniformity : ℝ
  headerAnomaly : ℝ
  visual : ℝ
  audio : ℝ
  spectral : ℝ
  sync : ℝ
  weighted : ℝ
  verdict : Verdict
  confidence : ℝ
  artifacts : List Artifact
  provenanceFound : Bool
  originalUploader : Option String
  timestamp : Option String
  heatmap : List (List ℝ)
  waveform : List ℝ
  correlation : List (ℝ × ℝ × ℝ)

/-- Pure part of `analyzeFile`: everything except the final registration
side effect.  `reg` is the registry state at the lookup, `r` the value of
the one `Math.random()` draw. -/
noncomputable def analyzeCore (reg : Registry) (b : List Byte)
    (mimeType : String) (r : ℝ) : CoreResult :=
  { entropy := entropyN b
    uniformity := uniformity b
    headerAnomaly := headerAnomaly b
    visual := visualScore b (getMediaCategory mimeType)
    audio := audioScore b (getMediaCategory mimeType)
    spectral := spectralAnomaly b (getMediaCategory mimeType)
    sync := syncScore b (getMediaCategory mimeType) r
    weighted := weightedScore b (getMediaCategory mimeType)
      (syncScore b (getMediaCategory mimeType) r)
      (reg (computeHash b)).isSome
    verdict := classify (weightedScore b (getMediaCategory mimeType)
      (syncScore b (getMediaCategory mimeType) r)
      (reg (computeHash b)).isSome)
    confidence := confidence (weightedScore b (getMediaCategory mimeType)
      (syncScore b (getMediaCategory mimeType) r)
      (reg (computeHash b)).isSome)
    artifacts := artifactList (entropyN b)
      (visualScore b (getMediaCategory mimeType)) (headerAnomaly b)
      (classify (weightedScore b (getMediaCategory mimeType)
        (syncScore b (getMediaCategory mimeType) r)
        (reg (computeHash b)).isSome))
    provenanceFound := (reg (computeHash b)).isSome
    originalUploader := (reg (computeHash b)).map ProvEntry.uploader
    timestamp := (reg (computeHash b)).map ProvEntry.timestamp
    heatmap := generateHeatmap (hashSeed b)
      (visualScore b (getMediaCategory mimeType))
    waveform := generateWaveform (hashSeed b)
      (audioScore b (getMediaCategory mimeType))
    correlation := generateCorrelation (hashSeed b)
      (syncScore b (getMediaCategory mimeType) r) }

/-- Full `analyzeFile`: the analysis record plus the updated registry.  If
the verdict is authentic the hash is written with `KNOWN_HASHES.set`, which
overwrites any existing binding; `now` models `new Date().toISOString()`.
The unused `fileName` argument is kept for interface fidelity (the source
only interpolates it into the explanation string). -/
noncomputable def analyzeFile (reg : Registry) (b : List Byte)
    (fileName mimeType : String) (now : String) (r : ℝ) :
    CoreResult × Registry :=
  (analyzeCore reg b mimeType r,
    if (analyzeCore reg b mimeType r).verdict = Verdict.authentic then
      fun h => if h = computeHash b then
        some ⟨"DeepTrust User", now⟩ else reg h
    else reg)

/-! ## Bounds on the byte statistics -/

lemma sampleLen_pos {b : List Byte} (hb : b ≠ []) : 0 < sampleLen b := by
  have : 0 < b.length := List.length_pos.mpr hb
  simp [sampleLen, List.length_take]
  omega

lemma freqIn_le_sampleLen (b : List Byte) (v : Byte) :
    freqIn b v ≤ sampleLen b :=
  List.count_le_length v (b.take 65536)

lemma sum_freqIn (b : List Byte) : ∑ v : Byte, freqIn b v = sampleLen b := by
  unfold freqIn sampleLen
  induction b.take 65536 with
  | nil => simp
  | cons x t ih =>
    simp only [List.count_cons, List.length_cons, Finset.sum_add_distrib, ih]
    simp [Finset.sum_ite_eq]

lemma entropyRaw_nonneg (b : List Byte) : 0 ≤ entropyRaw b := by
  apply Finset.sum_nonneg
  intro v _
  by_cases h : 0 < freqIn b v
  · have hlen : 0 < sampleLen b := lt_of_lt_of_le h (freqIn_le_sampleLen b v)
    have hp0 : (0 : ℝ) ≤ (freqIn b v : ℝ) / (sampleLen b : ℝ) := by positivity
    have hp1 : (freqIn b v : ℝ) / (sampleLen b : ℝ) ≤ 1 := by
      rw [div_le_one (by exact_mod_cast hlen)]
      exact_mod_cast freqIn_le_sampleLen b v
    have hlog : Real.logb 2 ((freqIn b v : ℝ) / (sampleLen b : ℝ)) ≤ 0 :=
      Real.logb_nonpos (by norm_num) hp0 hp1
    simp only [h, if_true]
    have := mul_nonpos_of_nonneg_of_nonpos hp0 hlog
    linarith
  · simp [h]

lemma entropyRaw_le_eight {b : List Byte} (hb : b ≠ []) : entropyRaw b ≤ 8 := by
  have hN : 0 < sampleLen b := sampleLen_pos hb
  have hNR : (0 : ℝ) < (sampleLen b : ℝ) := by exact_mod_cast hN
  have hlog2 : (0 : ℝ) < Real.log 2 := Real.log_pos (by norm_num)
  set S : Finset Byte := Finset.univ.filter (fun v => 0 < freqIn b v) with hS
  have hfilter : entropyRaw b =
      ∑ v in S, -(((freqIn b v : ℝ) / (sampleLen b : ℝ)) *
        Real.logb 2 ((freqIn b v : ℝ) / (sampleLen b : ℝ))) := by
    rw [entropyRaw, hS, Finset.sum_filter]
  have hsumS : ∑ v in S, ((freqIn b v : ℝ) / (sampleLen b : ℝ)) = 1 := by
    have h1 : ∑ v in S, freqIn b v = sampleLen b := by
      rw [← sum_freqIn b]
      apply Finset.sum_subset (Finset.subset_univ S)
      intro x _ hx
      simp only [hS, Finset.mem_filter, Finset.mem_univ, true_and, not_lt,
        Nat.le_zero] at hx
      exact hx
    rw [← Finset.sum_div]
    rw [div_eq_one_iff_eq (ne_of_gt hNR)]
    exact_mod_cast h1
  have hcard : (S.card : ℝ) ≤ 256 := by
    have h := Finset.card_le_univ S
    have h2 : S.card ≤ 256 := by simpa using h
    exact_mod_cast h2
  have hpt : ∀ v ∈ S,
      -(((freqIn b v : ℝ) / (sampleLen b : ℝ)) *
        Real.logb 2 ((freqIn b v : ℝ) / (sampleLen b : ℝ))) ≤
      (((freqIn b v : ℝ) / (sampleLen b : ℝ)) * Real.log 256 +
        (1 / 256 - ((freqIn b v : ℝ) / (sampleLen b : ℝ)))) / Real.log 2 := by
    intro v hv
    simp only [hS, Finset.mem_filter, Finset.mem_univ, true_and] at hv
    set p : ℝ := (freqIn b v : ℝ) / (sampleLen b : ℝ) with hpdef
    have hp : 0 < p := by
      apply div_pos _ hNR
      exact_mod_cast hv
    have hkey : Real.log (1 / (256 * p)) ≤ 1 / (256 * p) - 1 :=
      Real.log_le_sub_one_of_pos (by positivity)
    have hmul : p * Real.log (1 / (256 * p)) ≤ p * (1 / (256 * p) - 1) :=
      mul_le_mul_of_nonneg_left hkey hp.le
    have hsimp : p * (1 / (256 * p) - 1) = 1 / 256 - p := by
      field_simp
      ring
    have hsplit : -(p * Real.log p) =
        p * Real.log 256 + p * Real.log (1 / (256 * p)) := by
      rw [one_div, Real.log_inv, Real.log_mul (by norm_num) (ne_of_gt hp)]
      ring
    have hlogb : Real.logb 2 p = Real.log p / Real.log 2 :=
      Real.log_div_log.symm
    have hgoal : -(p * (Real.log p / Real.log 2)) =
        -(p * Real.log p) / Real.log 2 := by ring
    rw [hlogb, hgoal, div_le_div_iff_of_pos_right hlog2, hsplit]
    nlinarith [hmul, hsimp]
  have hT : entropyRaw b ≤
      ∑ v in S, ((((freqIn b v : ℝ) / (sampleLen b : ℝ)) * Real.log 256 +
        (1 / 256 - ((freqIn b v : ℝ) / (sampleLen b : ℝ))))) / Real.log 2 := by
    rw [hfilter]
    exact Finset.sum_le_sum hpt
  have hsum2 : ∑ v in S, ((((freqIn b v : ℝ) / (sampleLen b : ℝ)) * Real.log 256 +
      (1 / 256 - ((freqIn b v : ℝ) / (sampleLen b : ℝ))))) / Real.log 2 =
      (Real.log 256 + ((S.card : ℝ) / 256 - 1)) / Real.log 2 := by
    rw [← Finset.sum_div]
    congr 1
    rw [Finset.sum_add_distrib, ← Finset.sum_mul, hsumS, one_mul,
      Finset.sum_sub_distrib, hsumS, Finset.sum_const, nsmul_eq_mul]
    ring
  have hlog256 : Real.log 256 = 8 * Real.log 2 := by
    have : (256 : ℝ) = 2 ^ 8 := by norm_num
    rw [this, Real.log_pow]
    norm_num
  calc entropyRaw b ≤
      (Real.log 256 + ((S.card : ℝ) / 256 - 1)) / Real.log 2 := by
        rw [← hsum2]; exact hT
  _ ≤ Real.log 256 / Real.log 2 := by
      apply (div_le_div_iff_of_pos_right hlog2).mpr
      nlinarith [hcard]
  _ = 8 := by
      rw [hlog256]
      field_simp
  _ ≤ 8 := le_refl 8

lemma entropyN_nonneg (b : List Byte) : 0 ≤ entropyN b := by
  have := entropyRaw_nonneg b
  unfold entropyN
  linarith

lemma entropyN_le_one {b : List Byte} (hb : b ≠ []) : entropyN b ≤ 1 := by
  have := entropyRaw_le_eight hb
  unfold entropyN
  linarith

lemma uniformity_nonneg (b : List Byte) : 0 ≤ uniformity b := by
  unfold uniformity
  positivity

lemma uniqueBytes_le (b : List Byte) : uniqueBytes b ≤ 256 := by
  have h := List.Nodup.length_le_card (List.nodup_dedup (b.take 4096))
  simpa [uniqueBytes] using h

lemma uniformity_le_one (b : List Byte) : uniformity b ≤ 1 := by
  unfold uniformity
  rw [div_le_one (by norm_num)]
  exact_mod_cast uniqueBytes_le b

lemma headerBytes_length_pos {b : List Byte} (hb : b ≠ []) :
    0 < (headerBytes b).length := by
  have : 0 < b.length := List.length_pos.mpr hb
  simp [headerBytes, List.length_take]
  omega

lemma headerAnomaly_nonneg (b : List Byte) : 0 ≤ headerAnomaly b := by
  unfold headerAnomaly
  positivity

lemma headerAnomaly_le_one {b : List Byte} (hb : b ≠ []) :
    headerAnomaly b ≤ 1 := by
  unfold headerAnomaly
  rw [div_le_one (by exact_mod_cast headerBytes_length_pos hb)]
  exact_mod_cast List.countP_le_length _

/-! ## Bounds on the clamped scores -/

lemma minmax_mem (x : ℝ) : 0 ≤ min 1 (max 0 x) ∧ min 1 (max 0 x) ≤ 1 :=
  ⟨le_min (by norm_num) (le_max_left 0 x), min_le_left 1 _⟩

lemma maxmin_mem (x : ℝ) : 0 ≤ max 0 (min 1 x) ∧ max 0 (min 1 x) ≤ 1 :=
  ⟨le_max_left 0 _, max_le (by norm_num) (min_le_left 1 x)⟩

lemma visualScore_mem (b : List Byte) (cat : MediaCategory) :
    0 ≤ visualScore b cat ∧ visualScore b cat ≤ 1 := by
  unfold visualScore
  split_ifs
  all_goals first | exact minmax_mem _ | norm_num

lemma audioScore_mem (b : List Byte) (cat : MediaCategory) :
    0 ≤ audioScore b cat ∧ audioScore b cat ≤ 1 := by
  unfold audioScore
  split_ifs
  all_goals first | exact minmax_mem _ | norm_num

lemma spectralAnomaly_mem (b : List Byte) (cat : MediaCategory) :
    0 ≤ spectralAnomaly b cat ∧ spectralAnomaly b cat ≤ 1 := by
  unfold spectralAnomaly
  split_ifs
  all_goals first | exact minmax_mem _ | norm_num

lemma syncScore_mem (b : List Byte) (cat : MediaCategory) (r : ℝ) :
    0 ≤ syncScore b cat r ∧ syncScore b cat r ≤ 1 := by
  unfold syncScore
  exact maxmin_mem _

lemma confidence_mem (w : ℝ) : 0.4 ≤ confidence w ∧ confidence w ≤ 0.99 := by
  unfold confidence
  exact ⟨le_min (by norm_num) (le_max_left _ _), min_le_left _ _⟩

/-! ## Structural lemmas about the fusion step -/

lemma syncScore_of_video {cat : MediaCategory} (b : List Byte)
    (h : cat = MediaCategory.video) (r r' : ℝ) :
    syncScore b cat r = syncScore b cat r' := by
  subst h
  unfold syncScore syncScoreRaw
  simp

lemma weightedScore_sync_irrel (b : List Byte) (cat : MediaCategory)
    (pf : Bool) (r r' : ℝ) :
    weightedScore b cat (syncScore b cat r) pf =
      weightedScore b cat (syncScore b cat r') pf := by
  by_cases h : cat = MediaCategory.video
  · rw [syncScore_of_video b h r r']
  · unfold weightedScore
    simp [h]

lemma weightedScore_prov (b : List Byte) (cat : MediaCategory) (s : ℝ) :
    weightedScore b cat s true = weightedScore b cat s false - 0.25 := by
  unfold weightedScore
  norm_num
  split_ifs <;> ring

/-! ## Pointwise evaluations used by the concrete scenarios -/

lemma cat_octetStream :
    getMediaCategory "application/octet-stream" = MediaCategory.unknown := by
  decide

lemma cat_imagePng : getMediaCategory "image/png" = MediaCategory.image := by
  decide

lemma cat_videoMp4 : getMediaCategory "video/mp4" = MediaCategory.video := by
  decide

lemma headerAnomaly_single : headerAnomaly [(1 : Byte)] = 0 := by
  simp [headerAnomaly, anomalyCount, headerBytes]

lemma visualScore_unknown (b : List Byte) :
    visualScore b MediaCategory.unknown = 0.05 := by
  unfold visualScore
  simp

/-! ## Claim C2 -/

/-- C2: on the empty byte sequence the extractor returns entropy 0 and
uniformity 0 as the claim states, but the header-anomaly statistic is the
JavaScript division `0 / 0`, which is NaN (`none`), not the claimed 0: the
division-by-zero guard the specification requires is missing for
`headerAnomaly`.  This theorem evaluates the code at the failing input. -/
theorem C2_empty_input_stats :
    entropyN ([] : List Byte) = 0 ∧ uniformity ([] : List Byte) = 0 ∧
      headerAnomalyJS ([] : List Byte) = none := by
  refine ⟨?_, ?_, ?_⟩
  · simp [entropyN, entropyRaw, freqIn]
  · simp [uniformity, uniqueBytes]
  · simp [headerAnomalyJS, headerBytes]

/-! ## Claim C5 -/

/-- C5: the verdict is classified from the weighted score exactly as
claimed — `< 0.25` gives authentic, `> 0.5` gives manipulated, everything
in `[0.25, 0.5]` gives suspicious; in particular `0.25` is suspicious,
`0.2499` authentic and `0.5001` manipulated — and the pipeline's verdict is
this classifier applied to its weighted score. -/
theorem C5_threshold_classification :
    (∀ w : ℝ,
      (classify w = Verdict.authentic ↔ w < 0.25) ∧
      (classify w = Verdict.manipulated ↔ 0.5 < w) ∧
      (classify w = Verdict.suspicious ↔ 0.25 ≤ w ∧ w ≤ 0.5)) ∧
    classify 0.25 = Verdict.suspicious ∧
    classify 0.2499 = Verdict.authentic ∧
    classify 0.5001 = Verdict.manipulated ∧
    ∀ (reg : Registry) (b : List Byte) (m : String) (r : ℝ),
      (analyzeCore reg b m r).verdict =
        classify ((analyzeCore reg b m r).weighted) := by
  refine ⟨?_, by unfold classify; norm_num, by unfold classify; norm_num,
    by unfold classify; norm_num, fun reg b m r => rfl⟩
  intro w
  unfold classify
  split_ifs with h1 h2
  · refine ⟨by simp [h1], ?_, ?_⟩
    · simp
      linarith
    · simp
      intro hh
      linarith
  · push_neg at h1
    refine ⟨?_, by simp [h2], ?_⟩
    · simp
      linarith
    · simp
      intro hh
      linarith
  · push_neg at h1 h2
    refine ⟨?_, ?_, by simp [h1, h2]⟩
    · simp
      linarith
    · simp
      linarith

/-! ## Claim C7 -/

/-- Confidence formula as the claim states it, keyed by the verdict. -/
noncomputable def specConfidence (v : Verdict) (w : ℝ) : ℝ :=
  match v with
  | .authentic => 0.85 + (0.25 - w) * 0.4
  | .manipulated => 0.7 + (w - 0.5) * 0.5
  | .suspicious => 0.5 + |w - 0.375| * 0.3

/-- C7: the confidence computed by the code equals the per-verdict formula
of the claim, clamped to `[0.40, 0.99]`, and it is what the pipeline
returns. -/
theorem C7_confidence_formula :
    (∀ w : ℝ,
      confidence w = min 0.99 (max 0.4 (specConfidence (classify w) w))) ∧
    ∀ (reg : Registry) (b : List Byte) (m : String) (r : ℝ),
      (analyzeCore reg b m r).confidence =
        confidence ((analyzeCore reg b m r).weighted) := by
  refine ⟨?_, fun reg b m r => rfl⟩
  intro w
  unfold confidence confidenceRaw classify specConfidence
  split_ifs <;> rfl

/-! ## Claim C4 -/

/-- C4 counterexample: on the empty byte sequence the header-anomaly value
computed by the code is the JavaScript division `0 / 0 = NaN`, which is not
a number in `[0, 1]`, so the range invariant does not hold for every input
byte sequence. -/
theorem C4_empty_headerAnomaly_nan :
    ¬ ∃ q : ℚ, headerAnomalyJS ([] : List Byte) = some q ∧ 0 ≤ q ∧ q ≤ 1 := by
  simp [headerAnomalyJS, headerBytes]

/-- C4 (amended to non-empty inputs): for every non-empty byte sequence,
every MIME type, every registry state and every random draw, the extracted
statistics and all modality scores lie in `[0, 1]` and the confidence lies
in `[0.40, 0.99]`. -/
theorem C4_ranges (reg : Registry) (b : List Byte) (m : String) (r : ℝ)
    (hb : b ≠ []) :
    (0 ≤ (analyzeCore reg b m r).entropy ∧
      (analyzeCore reg b m r).entropy ≤ 1) ∧
    (0 ≤ (analyzeCore reg b m r).uniformity ∧
      (analyzeCore reg b m r).uniformity ≤ 1) ∧
    (0 ≤ (analyzeCore reg b m r).headerAnomaly ∧
      (analyzeCore reg b m r).headerAnomaly ≤ 1) ∧
    (0 ≤ (analyzeCore reg b m r).visual ∧
      (analyzeCore reg b m r).visual ≤ 1) ∧
    (0 ≤ (analyzeCore reg b m r).audio ∧
      (analyzeCore reg b m r).audio ≤ 1) ∧
    (0 ≤ (analyzeCore reg b m r).spectral ∧
      (analyzeCore reg b m r).spectral ≤ 1) ∧
    (0 ≤ (analyzeCore reg b m r).sync ∧
      (analyzeCore reg b m r).sync ≤ 1) ∧
    (0.4 ≤ (analyzeCore reg b m r).confidence ∧
      (analyzeCore reg b m r).confidence ≤ 0.99) :=
  ⟨⟨entropyN_nonneg b, entropyN_le_one hb⟩,
    ⟨uniformity_nonneg b, uniformity_le_one b⟩,
    ⟨headerAnomaly_nonneg b, headerAnomaly_le_one hb⟩,
    visualScore_mem b (getMediaCategory m),
    audioScore_mem b (getMediaCategory m),
    spectralAnomaly_mem b (getMediaCategory m),
    syncScore_mem b (getMediaCategory m) r,
    confidence_mem _⟩

/-- C4 witness: the amended range theorem applied at a concrete non-empty
input. -/
theorem C4_ranges_witness :
    (0 ≤ (analyzeCore emptyReg [(1 : Byte)] "image/png" 0).entropy ∧
      (analyzeCore emptyReg [(1 : Byte)] "image/png" 0).entropy ≤ 1) ∧
    (0 ≤ (analyzeCore emptyReg [(1 : Byte)] "image/png" 0).uniformity ∧
      (analyzeCore emptyReg [(1 : Byte)] "image/png" 0).uniformity ≤ 1) ∧
    (0 ≤ (analyzeCore emptyReg [(1 : Byte)] "image/png" 0).headerAnomaly ∧
      (analyzeCore emptyReg [(1 : Byte)] "image/png" 0).headerAnomaly ≤ 1) ∧
    (0 ≤ (analyzeCore emptyReg [(1 : Byte)] "image/png" 0).visual ∧
      (analyzeCore emptyReg [(1 : Byte)] "image/png" 0).visual ≤ 1) ∧
    (0 ≤ (analyzeCore emptyReg [(1 : Byte)] "image/png" 0).audio ∧
      (analyzeCore emptyReg [(1 : Byte)] "image/png" 0).audio ≤ 1) ∧
    (0 ≤ (analyzeCore emptyReg [(1 : Byte)] "image/png" 0).spectral ∧
      (analyzeCore emptyReg [(1 : Byte)] "image/png" 0).spectral ≤ 1) ∧
    (0 ≤ (analyzeCore emptyReg [(1 : Byte)] "image/png" 0).sync ∧
      (analyzeCore emptyReg [(1 : Byte)] "image/png" 0).sync ≤ 1) ∧
    (0.4 ≤ (analyzeCore emptyReg [(1 : Byte)] "image/png" 0).confidence ∧
      (analyzeCore emptyReg [(1 : Byte)] "image/png" 0).confidence ≤ 0.99) :=
  C4_ranges emptyReg [(1 : Byte)] "image/png" 0 (by simp)

/-! ## Claim C8 -/

/-- C8 counterexample: the generator recurrence as JavaScript computes it
is not the exact-integer recurrence `(s * 1103515245 + 12345) mod 2^31`.
At the reachable state `2^30 = 1073741824` the product `2^30 * 1103515245`
is an exact double of magnitude about `2^60`, whose unit in the last place
is `256`; adding `12345` therefore rounds to `+12288`, and the two streams
disagree: `1073754112` (code) versus `1073754169` (exact arithmetic). -/
theorem C8_double_rounding_cex :
    jsLcgNext 1073741824 = 1073754112 ∧
    exactLcgNext 1073741824 = 1073754169 ∧
    jsLcgNext 1073741824 ≠ exactLcgNext 1073741824 := by
  refine ⟨by decide, by decide, by decide⟩

/-- C8 (amended): all three generators use the very same double-precision
recurrence — the step closures of `generateHeatmap`, `generateWaveform`
and `generateCorrelation` agree with the canonical `jsLcgNext` — and each
generator's pseudo-random stream is the canonical stream for its offset
seed (`+0`, `+42`, `+99`), each sample normalized by dividing by
`2^31 − 1`.  The streams equal the exact-integer LCG stream only up to the
53-bit double rounding exhibited by the counterexample. -/
theorem C8_shared_recurrence :
    (∀ s : ℕ, heatStep s = waveStep s ∧ waveStep s = corrStep s ∧
      corrStep s = jsLcgNext s) ∧
    ∀ seed k : ℕ,
      heatDraw seed k = lcgValue seed k ∧
      waveDraw seed k = lcgValue (seed + 42) k ∧
      corrDraw seed k = lcgValue (seed + 99) k := by
  exact ⟨fun s => ⟨rfl, rfl, rfl⟩, fun seed k => ⟨rfl, rfl, rfl⟩⟩

/-! ## Claim C1 -/

/-- C1 counterexample: the analysis is not deterministic in the claimed
sense.  For a non-video sample the cross-modal sync score is
`0.9 + Math.random() * 0.08`; two calls on the identical bytes, filename
and MIME type whose random draws differ (here `0` and `1/2`) return
different `syncScore` values, so the ModalityScores (and with them the
correlation visualization, which consumes the sync score) are not a
function of the arguments alone. -/
theorem C1_sync_nondeterministic :
    (analyzeCore emptyReg [(1 : Byte)] "image/png" 0).sync ≠
    (analyzeCore emptyReg [(1 : Byte)] "image/png" (1 / 2)).sync := by
  have h : ∀ r : ℝ, (analyzeCore emptyReg [(1 : Byte)] "image/png" r).sync =
      max 0 (min 1 (0.9 + r * 0.08)) := by
    intro r
    show syncScore _ _ r = _
    unfold syncScore syncScoreRaw
    rw [cat_imagePng]
    simp
  rw [h, h]
  norm_num [min_def, max_def]

/-- C1 (amended): with the registry state fixed, every output of the
analysis except the sync score and the correlation series is a function of
the content bytes and MIME type alone — two calls with different
`Math.random()` draws agree on the byte statistics, the visual, audio and
spectral scores, the weighted score, verdict, confidence, artifacts,
heatmap, waveform and provenance flag — and for the video category the
sync score and the correlation series are deterministic as well.  Nothing
here depends on wall-clock time. -/
theorem C1_determinism (reg : Registry) (b : List Byte) (m : String)
    (r r' : ℝ) :
    (analyzeCore reg b m r).entropy = (analyzeCore reg b m r').entropy ∧
    (analyzeCore reg b m r).uniformity = (analyzeCore reg b m r').uniformity ∧
    (analyzeCore reg b m r).headerAnomaly =
      (analyzeCore reg b m r').headerAnomaly ∧
    (analyzeCore reg b m r).visual = (analyzeCore reg b m r').visual ∧
    (analyzeCore reg b m r).audio = (analyzeCore reg b m r').audio ∧
    (analyzeCore reg b m r).spectral = (analyzeCore reg b m r').spectral ∧
    (analyzeCore reg b m r).weighted = (analyzeCore reg b m r').weighted ∧
    (analyzeCore reg b m r).verdict = (analyzeCore reg b m r').verdict ∧
    (analyzeCore reg b m r).confidence =
      (analyzeCore reg b m r').confidence ∧
    (analyzeCore reg b m r).artifacts = (analyzeCore reg b m r').artifacts ∧
    (analyzeCore reg b m r).heatmap = (analyzeCore reg b m r').heatmap ∧
    (analyzeCore reg b m r).waveform = (analyzeCore reg b m r').waveform ∧
    (analyzeCore reg b m r).provenanceFound =
      (analyzeCore reg b m r').provenanceFound ∧
    (getMediaCategory m = MediaCategory.video →
      (analyzeCore reg b m r).sync = (analyzeCore reg b m r').sync ∧
      (analyzeCore reg b m r).correlation =
        (analyzeCore reg b m r').correlation) := by
  have hws : (analyzeCore reg b m r).weighted =
      (analyzeCore reg b m r').weighted :=
    weightedScore_sync_irrel b (getMediaCategory m)
      (reg (computeHash b)).isSome r r'
  refine ⟨rfl, rfl, rfl, rfl, rfl, rfl, hws, congrArg classify hws,
    congrArg confidence hws, ?_, rfl, rfl, rfl, fun hv => ⟨?_, ?_⟩⟩
  · exact congrArg
      (artifactList (entropyN b) (visualScore b (getMediaCategory m))
        (headerAnomaly b)) (congrArg classify hws)
  · exact syncScore_of_video b hv r r'
  · exact congrArg (generateCorrelation (hashSeed b))
      (syncScore_of_video b hv r r')

/-- C1 witness: the deterministic part applied at a concrete video input
with two different random draws. -/
theorem C1_determinism_witness :
    (analyzeCore emptyReg [(1 : Byte)] "video/mp4" 0).sync =
      (analyzeCore emptyReg [(1 : Byte)] "video/mp4" 1).sync ∧
    (analyzeCore emptyReg [(1 : Byte)] "video/mp4" 0).correlation =
      (analyzeCore emptyReg [(1 : Byte)] "video/mp4" 1).correlation :=
  (C1_determinism emptyReg [(1 : Byte)] "video/mp4"
    0 1).2.2.2.2.2.2.2.2.2.2.2.2.2 cat_videoMp4

/-! ## Claim C9 -/

/-- Artifact list exactly as the claim words it: four conditional entries,
the header entry with severity `headerAnomaly` itself (no clamp). -/
noncomputable def specArtifacts (entropy visual header : ℝ) : List Artifact :=
  (if visual > 0.3 then
    [⟨"Facial region / Jawline", min 1 (visual * 1.2)⟩] else []) ++
  (if visual > 0.4 then
    [⟨"Eye reflection consistency", min 1 (visual * 0.8)⟩] else []) ++
  (if header > 0.4 then
    [⟨"File header / Metadata", header⟩] else []) ++
  (if entropy > 0.95 then
    [⟨"Compression artifacts", min 1 ((entropy - 0.9) * 5)⟩] else [])

lemma artifactList_of_authentic (e v ha : ℝ) :
    artifactList e v ha Verdict.authentic = [] := by
  unfold artifactList
  simp

lemma artifactList_of_ne (e v ha : ℝ) (vd : Verdict)
    (h : vd ≠ Verdict.authentic) (hha : ha ≤ 1) :
    artifactList e v ha vd = specArtifacts e v ha := by
  unfold artifactList specArtifacts
  rw [if_pos h, min_eq_right hha]

/-- C9: for non-empty inputs, an authentic verdict always yields an empty
artifact list, and a non-authentic verdict yields exactly the four
conditional entries of the claim (the header entry's `min(1, ·)` clamp in
the code is the identity because `headerAnomaly ≤ 1`). -/
theorem C9_artifact_list (reg : Registry) (b : List Byte) (m : String)
    (r : ℝ) (hb : b ≠ []) :
    ((analyzeCore reg b m r).verdict = Verdict.authentic →
      (analyzeCore reg b m r).artifacts = []) ∧
    ((analyzeCore reg b m r).verdict ≠ Verdict.authentic →
      (analyzeCore reg b m r).artifacts =
        specArtifacts (analyzeCore reg b m r).entropy
          (analyzeCore reg b m r).visual
          (analyzeCore reg b m r).headerAnomaly) := by
  constructor
  · intro h
    calc (analyzeCore reg b m r).artifacts
        = artifactList (entropyN b) (visualScore b (getMediaCategory m))
            (headerAnomaly b) ((analyzeCore reg b m r).verdict) := rfl
      _ = artifactList (entropyN b) (visualScore b (getMediaCategory m))
            (headerAnomaly b) Verdict.authentic := by rw [h]
      _ = [] := artifactList_of_authentic _ _ _
  · intro h
    calc (analyzeCore reg b m r).artifacts
        = artifactList (entropyN b) (visualScore b (getMediaCategory m))
            (headerAnomaly b) ((analyzeCore reg b m r).verdict) := rfl
      _ = specArtifacts (entropyN b) (visualScore b (getMediaCategory m))
            (headerAnomaly b) :=
          artifactList_of_ne _ _ _ _ h (headerAnomaly_le_one hb)

/-- C9 witness: the artifact characterization applied at a concrete
non-empty input. -/
theorem C9_artifact_list_witness :
    ((analyzeCore emptyReg [(1 : Byte)] "image/png" 0).verdict =
        Verdict.authentic →
      (analyzeCore emptyReg [(1 : Byte)] "image/png" 0).artifacts = []) ∧
    ((analyzeCore emptyReg [(1 : Byte)] "image/png" 0).verdict ≠
        Verdict.authentic →
      (analyzeCore emptyReg [(1 : Byte)] "image/png" 0).artifacts =
        specArtifacts (analyzeCore emptyReg [(1 : Byte)] "image/png" 0).entropy
          (analyzeCore emptyReg [(1 : Byte)] "image/png" 0).visual
          (analyzeCore emptyReg [(1 : Byte)] "image/png" 0).headerAnomaly) :=
  C9_artifact_list emptyReg [(1 : Byte)] "image/png" 0 (by simp)

/-! ## Claim C10 -/

/-- C10: for every non-empty byte sequence whose MIME type falls in no
modelled category, the visual and audio scores are the fixed 0.05 floor,
the weighted score is at most 0.33, and the verdict is never
"manipulated". -/
theorem C10_unknown_never_manipulated (reg : Registry) (b : List Byte)
    (m : String) (r : ℝ) (hb : b ≠ [])
    (hcat : getMediaCategory m = MediaCategory.unknown) :
    (analyzeCore reg b m r).visual = 0.05 ∧
    (analyzeCore reg b m r).audio = 0.05 ∧
    (analyzeCore reg b m r).weighted ≤ 0.33 ∧
    (analyzeCore reg b m r).verdict ≠ Verdict.manipulated := by
  have hha0 := headerAnomaly_nonneg b
  have hha1 := headerAnomaly_le_one hb
  have hv : (analyzeCore reg b m r).visual = 0.05 := by
    show visualScore b (getMediaCategory m) = 0.05
    rw [hcat]
    exact visualScore_unknown b
  have haud : (analyzeCore reg b m r).audio = 0.05 := by
    show audioScore b (getMediaCategory m) = 0.05
    rw [hcat]
    unfold audioScore
    simp
  have hw : (analyzeCore reg b m r).weighted ≤ 0.33 := by
    show weightedScore b (getMediaCategory m) _ _ ≤ 0.33
    rw [hcat]
    unfold weightedScore
    simp [visualScore_unknown]
    split_ifs <;> linarith
  have hverd : (analyzeCore reg b m r).verdict ≠ Verdict.manipulated := by
    show classify (weightedScore b (getMediaCategory m)
      (syncScore b (getMediaCategory m) r) (reg (computeHash b)).isSome) ≠
      Verdict.manipulated
    have hw' : weightedScore b (getMediaCategory m)
        (syncScore b (getMediaCategory m) r)
        (reg (computeHash b)).isSome ≤ 0.33 := hw
    unfold classify
    split_ifs with h1 h2
    · simp
    · linarith
    · simp
  exact ⟨hv, haud, hw, hverd⟩

/-- C10 witness: the unknown-category bound applied at a concrete
non-empty input with a non-media MIME type. -/
theorem C10_unknown_never_manipulated_witness :
    (analyzeCore emptyReg [(1 : Byte)] "application/octet-stream" 0).visual
        = 0.05 ∧
    (analyzeCore emptyReg [(1 : Byte)] "application/octet-stream" 0).audio
        = 0.05 ∧
    (analyzeCore emptyReg [(1 : Byte)] "application/octet-stream" 0).weighted
        ≤ 0.33 ∧
    (analyzeCore emptyReg [(1 : Byte)] "application/octet-stream" 0).verdict
        ≠ Verdict.manipulated :=
  C10_unknown_never_manipulated emptyReg [(1 : Byte)]
    "application/octet-stream" 0 (by simp) cat_octetStream

/-! ## Claim C3 -/

/-- C3: registration is not insert-if-absent.  The registry write is
`KNOWN_HASHES.set`, which overwrites: starting from a registry that already
holds an entry for the bytes `[0x01]` with timestamp
`2024-01-01T00:00:00.000Z`, re-analyzing the identical bytes (authentic
again, since the provenance adjustment only lowers the score) replaces the
entry with one carrying the later call's timestamp
`2024-02-02T00:00:00.000Z` — the first registration does not win, and the
stored timestamp is updated. -/
theorem C3_reregistration_overwrites :
    (analyzeFile
        (fun h => if h = computeHash [(1 : Byte)] then
          some ⟨"DeepTrust User", "2024-01-01T00:00:00.000Z"⟩ else none)
        [(1 : Byte)] "a.bin" "application/octet-stream"
        "2024-02-02T00:00:00.000Z" 0).2 (computeHash [(1 : Byte)]) =
      some ⟨"DeepTrust User", "2024-02-02T00:00:00.000Z"⟩ ∧
    (ProvEntry.mk "DeepTrust User" "2024-02-02T00:00:00.000Z" ≠
      ProvEntry.mk "DeepTrust User" "2024-01-01T00:00:00.000Z") := by
  set reg0 : Registry := fun h => if h = computeHash [(1 : Byte)] then
    some ⟨"DeepTrust User", "2024-01-01T00:00:00.000Z"⟩ else none with hreg0
  have hfound : (reg0 (computeHash [(1 : Byte)])).isSome = true := by
    simp [hreg0]
  have hauth : (analyzeCore reg0 [(1 : Byte)] "application/octet-stream"
      0).verdict = Verdict.authentic := by
    show classify (weightedScore [(1 : Byte)]
      (getMediaCategory "application/octet-stream")
      (syncScore [(1 : Byte)] (getMediaCategory "application/octet-stream") 0)
      (reg0 (computeHash [(1 : Byte)])).isSome) = Verdict.authentic
    rw [cat_octetStream, hfound]
    unfold weightedScore
    simp [visualScore_unknown, headerAnomaly_single]
    unfold classify
    norm_num
  refine ⟨?_, by simp⟩
  simp only [analyzeFile]
  rw [if_pos hauth]
  simp

/-! ## Claim C6 -/

/-- C6: analyzing unregistered bytes to an authentic verdict and then
re-analyzing the identical bytes yields `provenance.found = true` on the
second call and a weighted score no larger than the first call's
pre-registration weighted score (the adjustment switches from `+0.10` to
`−0.15`). -/
theorem C6_provenance_roundtrip (reg : Registry) (b : List Byte)
    (f m t₁ t₂ : String) (r₁ r₂ : ℝ) (_hb : b ≠ [])
    (hreg : reg (computeHash b) = none)
    (hauth : (analyzeFile reg b f m t₁ r₁).1.verdict = Verdict.authentic) :
    (analyzeFile (analyzeFile reg b f m t₁ r₁).2 b f m t₂
        r₂).1.provenanceFound = true ∧
    (analyzeFile (analyzeFile reg b f m t₁ r₁).2 b f m t₂ r₂).1.weighted ≤
      (analyzeFile reg b f m t₁ r₁).1.weighted := by
  have hauth' : (analyzeCore reg b m r₁).verdict = Verdict.authentic := hauth
  have hreg2 : (analyzeFile reg b f m t₁ r₁).2 (computeHash b) =
      some ⟨"DeepTrust User", t₁⟩ := by
    simp only [analyzeFile]
    rw [if_pos hauth']
    simp
  constructor
  · show ((analyzeFile reg b f m t₁ r₁).2 (computeHash b)).isSome = true
    rw [hreg2]
    rfl
  · show weightedScore b (getMediaCategory m)
        (syncScore b (getMediaCategory m) r₂)
        ((analyzeFile reg b f m t₁ r₁).2 (computeHash b)).isSome ≤
      weightedScore b (getMediaCategory m)
        (syncScore b (getMediaCategory m) r₁)
        (reg (computeHash b)).isSome
    rw [hreg2, hreg]
    simp only [Option.isSome_some, Option.isSome_none]
    have h1 := weightedScore_prov b (getMediaCategory m)
      (syncScore b (getMediaCategory m) r₂)
    have h2 := weightedScore_sync_irrel b (getMediaCategory m) false r₂ r₁
    linarith

/-- C6 witness: the round-trip applied at concrete unregistered bytes that
classify authentic on the first call. -/
theorem C6_provenance_roundtrip_witness :
    (analyzeFile (analyzeFile emptyReg [(1 : Byte)] "a.bin"
        "application/octet-stream" "T1" 0).2 [(1 : Byte)] "a.bin"
        "application/octet-stream" "T2" 0).1.provenanceFound = true ∧
    (analyzeFile (analyzeFile emptyReg [(1 : Byte)] "a.bin"
        "application/octet-stream" "T1" 0).2 [(1 : Byte)] "a.bin"
        "application/octet-stream" "T2" 0).1.weighted ≤
      (analyzeFile emptyReg [(1 : Byte)] "a.bin" "application/octet-stream"
        "T1" 0).1.weighted :=
  C6_provenance_roundtrip emptyReg [(1 : Byte)] "a.bin"
    "application/octet-stream" "T1" "T2" 0 0 (by simp) rfl
    (by
      show classify (weightedScore [(1 : Byte)]
        (getMediaCategory "application/octet-stream")
        (syncScore [(1 : Byte)]
          (getMediaCategory "application/octet-stream") 0)
        (emptyReg (computeHash [(1 : Byte)])).isSome) = Verdict.authentic
      rw [cat_octetStream]
      unfold weightedScore
      simp [visualScore_unknown, headerAnomaly_single, emptyReg]
      unfold classify
      norm_num)

end DeepTrust
